import Mathlib

/-!
A verification development for the JADN schema package (core validator
`check`, dependency analyzer `analyze`, and the JIDL text converter
`jidl_dumps` / `jidl_loads`).

The Python source keeps schemas as JSON-like nested lists.  The shallow
embedding below uses typed structures:

* a type definition `(TypeName, BaseType, TypeOptions, TypeDesc, Fields)` is a
  `TypeDefinition`; a 4-element definition (the trailing `Fields` component
  missing) is represented with `fields = none`;
* a field tuple is a `FieldDef`: either a 3-element Enumerated item
  `(ItemID, ItemValue, ItemDesc)` or a 5-element general field
  `(FieldID, FieldName, FieldType, FieldOptions, FieldDesc)`;
* the compact option strings of the external Option Codec
  (`topts_s2d`, `ftopts_s2d`, …, excluded from the core source) are kept in
  already-decoded key/value form, so the decoding functions become
  dictionary constructions.

Python errors raised through `raise_error` are modelled by the structured
error type `Err`; each constructor's doc comment quotes the exact f-string
of the source so that "the error cites X" claims can be read off the
constructor's arguments.
-/

namespace JADN

/-- A decoded option value: the option micro-format carries either an
integer (e.g. `minv`, `maxv`, `minc`, `maxc`, `tagid`) or a string
(e.g. `pattern`, `format`, `vtype`). -/
inductive OptVal where
  | i (n : Int)
  | s (v : String)
deriving DecidableEq, Repr

/-- A decoded type option: key and value.  Modelled from the spec: the
source stores type options as compact option strings and decodes them with
the external Option Codec; the embedding keeps them decoded. -/
abbrev TOpt := String × OptVal

/-- A decoded field option.  The option micro-format distinguishes
field-level options (multiplicity `minc`/`maxc`, `tagid`, `dir`, …) from
type-level options attached to a field; the first character of the compact
string encodes which.  Modelled from the spec: the embedding keeps the tag
explicit. -/
inductive FOpt where
  | f (k : String) (v : OptVal)
  | t (k : String) (v : OptVal)
deriving DecidableEq, Repr

/-- A field tuple.  `item` is the 3-element Enumerated item
`(ItemID, ItemValue, ItemDesc)`; `gen` is the 5-element general field
`(FieldID, FieldName, FieldType, FieldOptions, FieldDesc)`. -/
inductive FieldDef where
  | item (id : Int) (value : String) (desc : String)
  | gen (id : Int) (name : String) (ftype : String) (fopts : List FOpt) (desc : String)
deriving DecidableEq, Repr

/-- Positional access `f[FieldID]` (index 0): defined for both tuple shapes. -/
def FieldDef.fieldID : FieldDef → Int
  | .item i _ _ => i
  | .gen i _ _ _ _ => i

/-- Positional access `f[FieldName]` (index 1): the ItemValue of an item, the
FieldName of a general field. -/
def FieldDef.name1 : FieldDef → String
  | .item _ v _ => v
  | .gen _ n _ _ _ => n

/-- Positional access `f[FieldType]` (index 2): for a 3-element item this is
its ItemDesc (the source indexes the raw tuple, so the anonymous-type check
reads the description of an Enumerated item). -/
def FieldDef.type2 : FieldDef → String
  | .item _ _ d => d
  | .gen _ _ t _ _ => t

/-- `len(f)`: 3 for an item, 5 for a general field. -/
def FieldDef.len : FieldDef → Nat
  | .item _ _ _ => 3
  | .gen _ _ _ _ _ => 5

/-- A type definition `(TypeName, BaseType, TypeOptions, TypeDesc, Fields)`.
`fields = none` models a raw 4-element definition whose trailing `Fields`
component is missing; `check` materializes it as the empty list
(`TypeDefinition(*t)` with the named-tuple default, "Add empty Fields if not
present"). -/
structure TypeDefinition where
  name : String
  base : String
  opts : List TOpt
  desc : String
  fields : Option (List FieldDef)
deriving DecidableEq, Repr

/-- A JSON value as it occurs among schema meta entries.  Restricted to the
shapes the claims exercise (strings, integers, lists of strings). -/
inductive Jv where
  | s (v : String)
  | i (n : Int)
  | l (vs : List String)
deriving DecidableEq, Repr

/-- The `info` section of a schema as read by `analyze`
(`info.get('roots', info.get('exports', []))`): only the two keys the source
consults are represented. -/
structure InfoSec where
  roots : Option (List String)
  exports : Option (List String)
deriving DecidableEq, Repr

/-- A schema document.  The Python value is a dict; the converter reads the
`meta` key, `analyze` reads the `info` key, and `check` reads `types`, so all
three possible entries are represented (`none` = key absent). -/
structure Schema where
  meta : Option (List (String × Jv))
  info : Option InfoSec
  types : List TypeDefinition
deriving DecidableEq, Repr

/-! ## Type registry (`jadn.definitions`)

The registry module is not part of the visible source; the definitions below
are modelled from the spec (§4.1 Type Registry & Invariant Rules, §3 data
model). -/

/-- Modelled from the spec: the closed set of built-in base types
("Binary, Boolean, Integer, Number, String, Enumerated, Choice, Array,
ArrayOf, Map, MapOf, Record"). -/
def CORE_TYPES : List String :=
  ["Binary", "Boolean", "Integer", "Number", "String", "Enumerated",
   "Choice", "Array", "ArrayOf", "Map", "MapOf", "Record"]

/-- Modelled from the spec: `is_builtin(name)` — membership in the fixed
base-type set. -/
def is_builtin (t : String) : Bool := t ∈ CORE_TYPES

/-- Modelled from the spec: `has_fields(base_type)` — the structured
("has-fields") built-ins whose fields are full 5-element tuples
(Array/Choice/Map/Record, §3 "General field"). -/
def has_fields (t : String) : Bool :=
  t ∈ ["Choice", "Array", "Map", "Record"]

/-- Modelled from the spec: `FIELD_LENGTH[base_type]` — the field-tuple
length prescribed for each base type (3 for Enumerated items, 5 for the
full-field containers, 0 for types without fields). -/
def FIELD_LENGTH (t : String) : Nat :=
  if t = "Enumerated" then 3
  else if has_fields t then 5
  else 0

/-- Modelled from the spec: `REQUIRED_TYPE_OPTIONS[base_type]` — option keys
every type of that base type must carry (the collection item types of
`ArrayOf`/`MapOf`). -/
def REQUIRED_TYPE_OPTIONS (t : String) : List String :=
  if t = "ArrayOf" then ["vtype"]
  else if t = "MapOf" then ["ktype", "vtype"]
  else []

/-- Modelled from the spec: `ALLOWED_TYPE_OPTIONS[base_type]` — the superset
of option keys legal for each base type (required plus optional; size/value
bounds, `format`, `pattern` on String, `enum`/`pointer`, `and`/`or`, …). -/
def ALLOWED_TYPE_OPTIONS (t : String) : List String :=
  if t = "Binary" then ["format", "minv", "maxv"]
  else if t = "Boolean" then []
  else if t = "Integer" then ["format", "minv", "maxv"]
  else if t = "Number" then ["format", "minf", "maxf"]
  else if t = "String" then ["format", "minv", "maxv", "pattern"]
  else if t = "Enumerated" then ["id", "enum", "pointer", "and", "or"]
  else if t = "Choice" then ["id", "and", "or"]
  else if t = "Array" then ["extend", "format", "minv", "maxv", "and", "or"]
  else if t = "ArrayOf" then
    ["vtype", "minv", "maxv", "unique", "set", "unordered", "and", "or"]
  else if t = "Map" then ["id", "extend", "minv", "maxv", "and", "or"]
  else if t = "MapOf" then ["ktype", "vtype", "minv", "maxv", "and", "or"]
  else if t = "Record" then ["extend", "minv", "maxv", "and", "or"]
  else []

/-- Modelled from the spec: the `VALID_FORMATS` registry mapping each
recognized format tag to the base type it is legal on (e.g. a date-time
format is only legal on a String-based type). -/
def VALID_FORMATS : List (String × String) :=
  [("date-time", "String"), ("date", "String"), ("time", "String"),
   ("email", "String"), ("hostname", "String"), ("uri", "String"),
   ("ipv4-addr", "Binary"), ("ipv6-addr", "Binary"), ("eui", "Binary"),
   ("i8", "Integer"), ("i16", "Integer"), ("i32", "Integer"),
   ("f32", "Number"), ("f64", "Number")]

/-! ## Option Codec boundary (`jadn.utils`, external collaborator) -/

/-- Build a Python dict from a key/value list: later bindings overwrite
earlier ones, first-insertion order is kept. -/
def toDict : List (String × OptVal) → List (String × OptVal)
  | [] => []
  | (k, v) :: rest =>
      let d := toDict rest
      if (toDict rest).any (fun p => p.1 = k) then
        d.map (fun p => if p.1 = k then (k, v) else p)
      else (k, v) :: d

/-- Dict construction in Python iterates the list front-to-back with later
entries overwriting; `toDict` above recurses from the right, so reverse
first to keep first-occurrence key order with last-occurrence values. -/
def pyDict (l : List (String × OptVal)) : List (String × OptVal) :=
  (toDict (l.reverse)).reverse

/-- `d.get(k)` on a dict. -/
def dictGet (d : List (String × OptVal)) (k : String) : Option OptVal :=
  (d.find? (fun p => p.1 = k)).map (fun p => p.2)

/-- `k in d` on a dict. -/
def dictHas (d : List (String × OptVal)) (k : String) : Bool :=
  d.any (fun p => p.1 = k)

/-- `d.get(k, default)` where the value is an integer (the Option Codec
decodes the numeric options `minv`/`maxv`/`minf`/`maxf`/`minc`/`maxc` to
ints; a non-int value cannot reach the comparisons). -/
def dictGetInt (d : List (String × OptVal)) (k : String) (dflt : Int) : Int :=
  match dictGet d k with
  | some (.i n) => n
  | _ => dflt

/-- The keys of a dict. -/
def dictKeys (d : List (String × OptVal)) : List String := d.map (fun p => p.1)

/-- Modelled from the spec: `topts_s2d(list[str]) -> dict` of the external
Option Codec — decode a type-option list into a key→value mapping.  Options
are already held decoded, so this is the dict construction. -/
def topts_s2d (l : List TOpt) : List (String × OptVal) := pyDict l

/-- Modelled from the spec: `ftopts_s2d(list[str]) -> (field_opts, type_opts)`
of the external Option Codec — split a field-option list into the
field-level options (multiplicity, `tagid`, `dir`, …) and the type-level
options attached to the field. -/
def ftopts_s2d (l : List FOpt) : List (String × OptVal) × List (String × OptVal) :=
  (pyDict (l.filterMap (fun o => match o with | .f k v => some (k, v) | .t _ _ => none)),
   pyDict (l.filterMap (fun o => match o with | .t k v => some (k, v) | .f _ _ => none)))

/-- `get_optx(opts, name)`: position of an option in a raw option list
(`None` when absent); only its `is not None` result is ever used. -/
def get_optx (opts : List TOpt) (k : String) : Option TOpt :=
  opts.find? (fun p => p.1 = k)

/-! ## Validation errors

Each constructor corresponds to one `raise_error` call of `core.py`; the doc
comment quotes the message f-string. -/

/-- Errors raised by `check` / `check_typeopts` via `raise_error`. -/
inductive Err where
  /-- `Missing type option {type_name}: {ro}` -/
  | missingTypeOption (typeName : String) (missing : List String)
  /-- `Unsupported type option {type_name} ({base_type}): {uo}` -/
  | unsupportedTypeOption (typeName baseType : String) (keys : List String)
  /-- `Bad value range {type_name} ({base_type}): [{minv}..{maxv}]` -/
  | badValueRangeV (typeName baseType : String) (minv maxv : Int)
  /-- `Bad value range {type_name} ({base_type}): [{minf}..{maxf}]` -/
  | badValueRangeF (typeName baseType : String) (minf maxf : Int)
  /-- `String cannot have both pattern and size constraints: {type_name}` -/
  | patternAndSize (typeName : String)
  /-- `Unsupported format {fmt} in {type_name} {base_type}` -/
  | unsupportedFormat (fmt typeName baseType : String)
  /-- `Type cannot be both Enum and Pointer {type_name} {base_type}` -/
  | enumAndPointer (typeName baseType : String)
  /-- `Unsupported union+intersection in {type_name} {base_type}` -/
  | unionAndIntersection (typeName baseType : String)
  /-- `Colliding type definitions {collisions}` -/
  | collidingTypeNames (names : List String)
  /-- `Reserved type name {type_name}` -/
  | reservedTypeName (typeName : String)
  /-- `Invalid base type {type_name}: {base_type}` -/
  | invalidBaseType (typeName baseType : String)
  /-- `{type_name}({base_type}) should not have defined fields with the option enum/pointer` -/
  | enumPointerWithFields (typeName baseType : String)
  /-- `{type_name}/{field_name}({field_id}): Invalid type "{field_type}"` -/
  | anonStructuredField (typeName fieldName : String) (fieldID : Int) (fieldType : String)
  /-- `Duplicate fieldID: {type_name} {dd}` -/
  | duplicateFieldID (typeName : String) (ids : List Int)
  /-- `Duplicate field name {type_name} {dd}` -/
  | duplicateFieldName (typeName : String) (names : List String)
  /-- `Bad field id={field_id} in {type_name} length, {len} should be {flen}` -/
  | badFieldLength (fieldID : Int) (typeName : String) (got expected : Nat)
  /-- `Item tag error: {type_name}({base_type}) [{field_name}] -- {field_id} should be {idx}` -/
  | itemTag (typeName baseType fieldName : String) (got : Int) (expected : Nat)
  /-- `{type_name}/{field_name} bad multiplicity {minc} {maxc}` -/
  | badMultiplicity (typeName fieldName : String) (minc maxc : Int)
  /-- `{type_name}/{field_name}({field_type}) choice has bad external tag {tf}` -/
  | badExternalTag (typeName fieldName fieldType : String) (tag : Int)
  /-- `{type_name}/{field_name}({field_type}) cannot have Type options {fto}` -/
  | fieldTypeOptions (typeName fieldName fieldType : String)
      (fto : List (String × OptVal))
  /-- `{type_name}/{field_name}: {field_type} cannot be dir` -/
  | badDir (typeName fieldName fieldType : String)
deriving DecidableEq, Repr

/-! ## `check_typeopts` (core.py lines 28-52) -/

/-- Lines 46-52 of `check_typeopts`: format registry lookup
(`if fmt := topts.get('format'):` — an empty format string is falsy),
enum/pointer exclusivity, and/or exclusivity. -/
def check_typeopts_tail (type_name base_type : String)
    (topts : List (String × OptVal)) : Except Err Unit :=
  let fmtRes : Except Err Unit :=
    match dictGet topts "format" with
    | some (.s fmt) =>
        if fmt ≠ "" ∧ ((VALID_FORMATS.find? (fun p => p.1 = fmt)).map
            (fun p => p.2) ≠ some base_type) then
          .error (.unsupportedFormat fmt type_name base_type)
        else .ok ()
    | _ => .ok ()
  match fmtRes with
  | .error e => .error e
  | .ok _ =>
      if dictHas topts "enum" ∧ dictHas topts "pointer" then
        .error (.enumAndPointer type_name base_type)
      else if dictHas topts "and" ∧ dictHas topts "or" then
        .error (.unionAndIntersection type_name base_type)
      else .ok ()

/-- `check_typeopts(type_name, base_type, topts)`: reject invalid type
options and undefined formats, in source order — missing required options,
unsupported options, `minv..maxv` range, `minf..maxf` range, pattern vs.
size exclusivity, then the tail checks (format, enum/pointer, and/or). -/
def check_typeopts (type_name base_type : String)
    (topts : List (String × OptVal)) : Except Err Unit :=
  if (REQUIRED_TYPE_OPTIONS base_type).filter (fun k => ¬ dictHas topts k) ≠ [] then
    .error (.missingTypeOption type_name
      ((REQUIRED_TYPE_OPTIONS base_type).filter (fun k => ¬ dictHas topts k)))
  else if (dictKeys topts).filter
      (fun k => k ∉ ALLOWED_TYPE_OPTIONS base_type) ≠ [] then
    .error (.unsupportedTypeOption type_name base_type
      ((dictKeys topts).filter (fun k => k ∉ ALLOWED_TYPE_OPTIONS base_type)))
  else if dictHas topts "maxv" ∧ dictHas topts "minv" ∧
        dictGetInt topts "maxv" 0 < dictGetInt topts "minv" 0 then
      .error (.badValueRangeV type_name base_type
        (dictGetInt topts "minv" 0) (dictGetInt topts "maxv" 0))
    else if dictHas topts "maxf" ∧ dictHas topts "minf" ∧
        dictGetInt topts "maxf" 0 < dictGetInt topts "minf" 0 then
      .error (.badValueRangeF type_name base_type
        (dictGetInt topts "minf" 0) (dictGetInt topts "maxf" 0))
    else if (dictHas topts "minv" ∨ dictHas topts "maxv") ∧
        dictHas topts "pattern" then
      .error (.patternAndSize type_name)
    else check_typeopts_tail type_name base_type topts

/-! ## `check` (core.py lines 56-149), decomposed into its sequential
stages.  Each stage is one contiguous block of the per-type loop body; the
composition `checkTypeDef` raises the first failure exactly as the source
does. -/

/-- `duplicates(seq)`: the set of elements occurring more than once
(Python builds it by walking the sequence and collecting re-seen values;
the set's display order is abstracted to first-occurrence order). -/
def duplicates {α : Type} [DecidableEq α] (l : List α) : List α :=
  (l.filter (fun x => 2 ≤ l.count x)).dedup

/-- Lines 83-84: `if is_builtin(type_def.TypeName): raise "Reserved type name"`. -/
def stage_reserved (td : TypeDefinition) : Except Err Unit :=
  if is_builtin td.name then .error (.reservedTypeName td.name) else .ok ()

/-- Lines 85-86: `if not is_builtin(type_def.BaseType): raise "Invalid base type"`. -/
def stage_base (td : TypeDefinition) : Except Err Unit :=
  if ¬ is_builtin td.base then .error (.invalidBaseType td.name td.base)
  else .ok ()

/-- Lines 87-88: decode the type options and run `check_typeopts`. -/
def stage_opts (td : TypeDefinition) : Except Err Unit :=
  check_typeopts td.name td.base (topts_s2d td.opts)

/-- Lines 92-94: a type with an `enum`/`pointer` option must not declare
fields. -/
def stage_enumptr (td : TypeDefinition) : Except Err Unit :=
  let topts := topts_s2d td.opts
  if (dictHas topts "enum" ∨ dictHas topts "pointer") ∧
      td.fields.getD [] ≠ [] then
    .error (.enumPointerWithFields td.name td.base)
  else .ok ()

/-- Lines 95-98: the loop rejecting the first field whose declared type is
itself a has-fields container (anonymous structured types are illegal). -/
def anonScan (tn : String) : List FieldDef → Except Err Unit
  | [] => .ok ()
  | fd :: rest =>
      if has_fields fd.type2 then
        .error (.anonStructuredField tn fd.name1 fd.fieldID fd.type2)
      else anonScan tn rest

/-- Lines 95-98 applied to a type definition. -/
def stage_anon (td : TypeDefinition) : Except Err Unit :=
  anonScan td.name (td.fields.getD [])

/-- Lines 106-107: duplicate field IDs. -/
def stage_dupids (td : TypeDefinition) : Except Err Unit :=
  let dd := duplicates ((td.fields.getD []).map FieldDef.fieldID)
  if dd ≠ [] then .error (.duplicateFieldID td.name dd) else .ok ()

/-- Lines 108-109: duplicate field names (for a 3-element item the name slot
is its ItemValue). -/
def stage_dupnames (td : TypeDefinition) : Except Err Unit :=
  let dd := duplicates ((td.fields.getD []).map FieldDef.name1)
  if dd ≠ [] then .error (.duplicateFieldName td.name dd) else .ok ()

/-- Lines 116-118: every field tuple must have the length `FIELD_LENGTH`
prescribes for the base type; the first offender is reported. -/
def stage_len (td : TypeDefinition) : Except Err Unit :=
  let flen := FIELD_LENGTH td.base
  match (td.fields.getD []).filter (fun f => f.len ≠ flen) with
  | [] => .ok ()
  | invalid :: _ =>
      .error (.badFieldLength invalid.fieldID td.name invalid.len flen)

/-- Lines 122-125: scan `enumerate(fields, 1)` for the first field whose
FieldID is not its ordinal position. -/
def firstBadOrdinal : List FieldDef → Nat → Option (FieldDef × Nat)
  | [], _ => none
  | f :: rest, n => if f.fieldID ≠ (n : Int) then some (f, n)
      else firstBadOrdinal rest (n + 1)

/-- Lines 120-125: for `Array` and `Record` base types, field IDs must be
the 1-based ordinal position. -/
def stage_ordinal (td : TypeDefinition) : Except Err Unit :=
  if td.base = "Array" ∨ td.base = "Record" then
    match firstBadOrdinal (td.fields.getD []) 1 with
    | some (f, n) => .error (.itemTag td.name td.base f.name1 f.fieldID n)
    | none => .ok ()
  else .ok ()

/-- Lines 129-148, one iteration: the per-field checks of a full (5-element)
field — multiplicity bounds, external `tagid` resolution (skipped for a
falsy, i.e. zero, tag), option validity against the field's declared type,
and the `dir` restriction.  An `item` cannot reach this stage (the length
stage has already ensured every field is 5-element when `flen > FieldDesc`). -/
def checkGenField (tn : String) (ids : List Int) : FieldDef → Except Err Unit
  | .item _ _ _ => .ok ()
  | .gen _ name ftype fopts _ =>
      let fo := (ftopts_s2d fopts).1
      let fto := (ftopts_s2d fopts).2
      let minc := dictGetInt fo "minc" 1
      let maxc := dictGetInt fo "maxc" 1
      if minc < 0 ∨ maxc < 0 ∨ (0 < maxc ∧ maxc < minc) then
        .error (.badMultiplicity tn name minc maxc)
      else
        -- `if tf := fo.get('tagid', None):` — a zero tag is falsy, so the
        -- resolution check is skipped for it
        let tagRes : Except Err Unit :=
          match dictGet fo "tagid" with
          | some (.i tf) =>
              if tf ≠ 0 ∧ tf ∉ ids then
                .error (.badExternalTag tn name ftype tf)
              else .ok ()
          | _ => .ok ()
        match tagRes with
        | .error e => .error e
        | .ok _ =>
            let optRes : Except Err Unit :=
              if is_builtin ftype then
                check_typeopts (tn ++ "/" ++ name) ftype fto
              else if fto ≠ [] then
                -- `allowed = {'unique', } if maxc != 1 else set()`
                let allowed := if maxc ≠ 1 then ["unique"] else []
                if (dictKeys fto).filter (fun k => k ∉ allowed) ≠ [] then
                  .error (.fieldTypeOptions tn name ftype fto)
                else .ok ()
              else .ok ()
            match optRes with
            | .error e => .error e
            | .ok _ =>
                if dictHas fo "dir" then
                  if is_builtin ftype ∧ ¬ has_fields ftype then
                    .error (.badDir tn name ftype)
                  else .ok ()
                else .ok ()

/-- Lines 129-148, the loop over all fields in declaration order. -/
def genFieldScan (tn : String) (ids : List Int) : List FieldDef → Except Err Unit
  | [] => .ok ()
  | f :: rest =>
      match checkGenField tn ids f with
      | .error e => .error e
      | .ok _ => genFieldScan tn ids rest

/-- Lines 127-148: the full-field checks run only when
`flen > FieldDesc`, i.e. for the 5-element-field base types. -/
def stage_fullfields (td : TypeDefinition) : Except Err Unit :=
  let fields := td.fields.getD []
  if 4 < FIELD_LENGTH td.base then
    genFieldScan td.name (fields.map FieldDef.fieldID) fields
  else .ok ()

/-- Sequence two unit checks, propagating the first failure (the
`raise_error` control flow of the source). -/
def andThenE (a b : Except Err Unit) : Except Err Unit :=
  match a with
  | .error e => .error e
  | .ok _ => b

/-- The per-type body of `check`'s loop (lines 83-148), stages in source
order. -/
def checkTypeDef (td : TypeDefinition) : Except Err Unit :=
  andThenE (stage_reserved td)
    (andThenE (stage_base td)
      (andThenE (stage_opts td)
        (andThenE (stage_enumptr td)
          (andThenE (stage_anon td)
            (andThenE (stage_dupids td)
              (andThenE (stage_dupnames td)
                (andThenE (stage_len td)
                  (andThenE (stage_ordinal td) (stage_fullfields td)))))))))

/-- Lines 75-148: iterate the type definitions, reporting a name that
collides with an earlier one (`types` dict) before the per-type checks. -/
def checkTypes : List TypeDefinition → List String → Except Err Unit
  | [], _ => .ok ()
  | td :: rest, seen =>
      if td.name ∈ seen then .error (.collidingTypeNames [td.name])
      else
        match checkTypeDef td with
        | .error e => .error e
        | .ok _ => checkTypes rest (td.name :: seen)

/-- Lines 62-64: `schema_types = [TypeDefinition(*t) for t in schema['types']]`
followed by `schema['types'] = [list(t) for t in schema_types]` — every type
definition is coerced to the full 5-component shape, a missing trailing
`Fields` becoming the empty list.  The assignment happens on the input dict
itself, before any validation. -/
def normTd (td : TypeDefinition) : TypeDefinition :=
  { td with fields := some (td.fields.getD []) }

def normalize (s : Schema) : Schema :=
  { s with types := s.types.map normTd }

/-- Modelled from the spec: the JSON-Schema structural validation of line 68
(the meta-schema data file is not part of the visible source).  The typed
embedding enforces the JSON-level shape by construction; the residual
structural condition is that every type definition carries its `Fields`
component (always true after normalization). -/
def jadnJsonSchemaOk (s : Schema) : Bool :=
  s.types.all (fun td => td.fields.isSome)

/-- Modelled from the spec: the self-referential meta-schema check of lines
70-72 (`assert meta_schema.encode('Schema', schema) == schema`), performed by
the external instance codec; deterministic in the schema value and, per the
spec, an internal-consistency fault rather than a user-schema outcome,
modelled as consistent. -/
def metaSchemaSelfCheck (_s : Schema) : Bool := true

/-- The structural error of the two external validations (kept separate from
`Err` because the source raises `jsonschema.ValidationError` /
`AssertionError` there, not `raise_error`). -/
inductive CheckErr where
  | jsonSchema
  | metaSchema
  | semantic (e : Err)
deriving DecidableEq, Repr

/-- `check(schema)` (lines 56-149): normalize the type definitions **in
place** (the source assigns into the input dict), validate against the JADN
JSON schema and the JADN meta-schema, run the per-type semantic checks, and
return the (same, mutated) schema. -/
def check (s : Schema) : Except CheckErr Schema :=
  let ns := normalize s
  if ¬ jadnJsonSchemaOk ns then .error .jsonSchema
  else if ¬ metaSchemaSelfCheck ns then .error .metaSchema
  else
    match checkTypes ns.types [] with
    | .error e => .error (.semantic e)
    | .ok _ => .ok ns

/-! ## `analyze` (core.py lines 152-163) -/

/-- The result record of `analyze`. -/
structure AnalyzeResult where
  unreferenced : List String
  undefined : List String
  cycles : List String
deriving DecidableEq, Repr

/-- Modelled from the spec: `jadn.build_deps(schema)` (external
dependency-extraction helper, §4.3) — a mapping from each declared type name
to the set of type names it references via its field types (direct
references only); references to built-in base types are not declared type
names and are not dependencies. -/
def build_deps (s : Schema) : List (String × List String) :=
  s.types.map (fun td =>
    (td.name,
     (((td.fields.getD []).filterMap (fun f => match f with
        | .gen _ _ ftype _ _ => some ftype
        | .item _ _ _ => none)).filter (fun n => ¬ is_builtin n)).dedup))

/-- `analyze(schema)` (lines 152-163): compute unreferenced and undefined
type names relative to the declared roots
(`info.get('roots', info.get('exports', []))` — `exports` is deprecated).
The Python set differences are kept in declaration order. -/
def analyze (s : Schema) : AnalyzeResult :=
  let items := build_deps s
  let info := s.info.getD ⟨none, none⟩
  let roots := info.roots.getD (info.exports.getD [])
  let defs := items.map (fun p => p.1)
  let dep_refs := items.flatMap (fun p => p.2)
  let refs := dep_refs ++ roots
  { unreferenced := (defs.filter (fun d => d ∉ refs)).dedup,
    undefined := (refs.filter (fun r => r ∉ defs)).dedup,
    cycles := [] }

/-! ## Helper lemmas about `check` -/

theorem normTd_idem (td : TypeDefinition) : normTd (normTd td) = normTd td := by
  simp [normTd]

theorem normalize_idem (s : Schema) : normalize (normalize s) = normalize s := by
  simp [normalize, List.map_map, Function.comp_def, normTd_idem]

theorem jadnJsonSchemaOk_normalize (s : Schema) :
    jadnJsonSchemaOk (normalize s) = true := by
  simp [jadnJsonSchemaOk, normalize, normTd, List.all_map, Function.comp_def]

theorem check_ok_elim {s t : Schema} (h : check s = .ok t) :
    t = normalize s ∧ checkTypes (normalize s).types [] = .ok () := by
  unfold check at h
  simp only [jadnJsonSchemaOk_normalize, metaSchemaSelfCheck, not_true_eq_false,
    Bool.true_eq_false, if_false, ite_false] at h
  cases hct : checkTypes (normalize s).types [] with
  | error e => rw [hct] at h; exact absurd h (by simp)
  | ok u => exact ⟨by rw [hct] at h; simpa using h.symm, by simp [hct]⟩

theorem check_ok_intro {s : Schema}
    (h : checkTypes (normalize s).types [] = .ok ()) :
    check s = .ok (normalize s) := by
  unfold check
  simp only [jadnJsonSchemaOk_normalize, metaSchemaSelfCheck, not_true_eq_false,
    Bool.true_eq_false, if_false, ite_false]
  rw [h]

theorem check_err_intro {s : Schema} {e : Err}
    (h : checkTypes (normalize s).types [] = .error e) :
    check s = .error (.semantic e) := by
  unfold check
  simp only [jadnJsonSchemaOk_normalize, metaSchemaSelfCheck, not_true_eq_false,
    Bool.true_eq_false, if_false, ite_false]
  rw [h]

theorem checkTypes_single_err {td : TypeDefinition} {e : Err}
    (h : checkTypeDef td = .error e) : checkTypes [td] [] = .error e := by
  simp [checkTypes, h]

theorem checkTypes_single_ok {td : TypeDefinition}
    (h : checkTypeDef td = .ok ()) : checkTypes [td] [] = .ok () := by
  simp [checkTypes, h]

theorem check_single_err {td : TypeDefinition} {e : Err}
    (h : checkTypeDef (normTd td) = .error e) :
    check ⟨none, none, [td]⟩ = .error (.semantic e) :=
  check_err_intro (by simpa [normalize] using checkTypes_single_err h)

theorem check_single_ok {td : TypeDefinition}
    (h : checkTypeDef (normTd td) = .ok ()) :
    check ⟨none, none, [td]⟩ = .ok ⟨none, none, [normTd td]⟩ := by
  have := @check_ok_intro ⟨none, none, [td]⟩
    (by simpa [normalize] using checkTypes_single_ok h)
  simpa [normalize] using this

/-! ## Claim C1: dependency-analysis scenario -/

/-- C1: for every schema declaring types `A` (whose fields reference `B`),
`B` (referencing nothing) and `C` (referenced by nothing and not a root),
with `roots = ["A"]` declared in the schema's metadata (the `roots` key of
the `info` section that `analyze` consults, falling back to the deprecated
`exports` key), `analyze` returns `unreferenced = ["C"]` and
`undefined = []` (and the placeholder `cycles = []`). -/
theorem C1_analyze_scenario (s : Schema)
    (hdeps : build_deps s = [("A", ["B"]), ("B", []), ("C", [])])
    (hroots : (∃ ex, s.info = some ⟨some ["A"], ex⟩) ∨
      s.info = some ⟨none, some ["A"]⟩) :
    analyze s = ⟨["C"], [], []⟩ := by
  rcases hroots with ⟨ex, h⟩ | h <;> simp [analyze, hdeps, h]

def C1ex : Schema :=
  ⟨none, some ⟨some ["A"], none⟩,
   [⟨"A", "Record", [], "", some [.gen 1 "b" "B" [] ""]⟩,
    ⟨"B", "String", [], "", some []⟩,
    ⟨"C", "String", [], "", some []⟩]⟩

/-- C1 witness: a concrete three-type schema realizing the scenario. -/
theorem C1_analyze_scenario_witness :
    build_deps C1ex = [("A", ["B"]), ("B", []), ("C", [])] ∧
    analyze C1ex = ⟨["C"], [], []⟩ :=
  ⟨by decide, C1_analyze_scenario C1ex (by decide) (Or.inl ⟨none, rfl⟩)⟩

/-! ## Claim C2: `check` and in-place normalization -/

/-- C2 (amended): `check` does not leave the input value unchanged — lines
63-64 assign the canonicalized type list into the input dict itself before
any validation runs, and the returned schema is that same mutated value: for
every accepted schema the output is exactly `normalize s` (five-component
type definitions, missing trailing `Fields` defaulted to the empty list),
not an unmutated copy of `s`. -/
theorem C2_check_returns_normalized (s t : Schema) (h : check s = .ok t) :
    t = normalize s :=
  (check_ok_elim h).1

def C2ex : Schema := ⟨none, none, [⟨"Color", "Enumerated", [], "", none⟩]⟩

/-- C2 counterexample to the claim as stated: a schema with a 4-element type
definition (missing `Fields`) is accepted by `check`, and the value returned
— the input dict after the line-64 assignment — differs from the schema
value that was passed in, so the input schema is not unchanged after
`check` returns. -/
theorem C2_check_mutates_input_counterexample :
    check C2ex = .ok ⟨none, none, [⟨"Color", "Enumerated", [], "", some []⟩]⟩ ∧
    (⟨none, none, [⟨"Color", "Enumerated", [], "", some []⟩]⟩ : Schema) ≠ C2ex :=
  ⟨by rfl, by decide⟩

/-- C2 witness: the amended claim applied to the 4-element-type schema. -/
theorem C2_check_returns_normalized_witness :
    check C2ex = .ok ⟨none, none, [⟨"Color", "Enumerated", [], "", some []⟩]⟩ ∧
    (⟨none, none, [⟨"Color", "Enumerated", [], "", some []⟩]⟩ : Schema) =
      normalize C2ex :=
  ⟨by rfl, C2_check_returns_normalized C2ex _ (by rfl)⟩

/-! ## Claim C7: idempotence of `check` -/

/-- C7: for every schema `S` that passes `check`, the result is `S` up to
normalization of the `Fields` component (`normalize S`), and `check` is
idempotent: running it again on its own output succeeds and returns that
output unchanged. -/
theorem C7_check_idempotent (s t : Schema) (h : check s = .ok t) :
    t = normalize s ∧ check t = .ok t := by
  obtain ⟨ht, hct⟩ := check_ok_elim h
  subst ht
  refine ⟨rfl, ?_⟩
  have h2 : checkTypes (normalize (normalize s)).types [] = .ok () := by
    rw [normalize_idem]; exact hct
  have := check_ok_intro h2
  rwa [normalize_idem] at this

def C7ex : Schema :=
  ⟨none, none, [⟨"Pair", "Record", [], "",
     some [.gen 1 "a" "String" [] "", .gen 2 "b" "Integer" [] ""]⟩]⟩

/-- C7 witness: a concrete already-normalized Record schema; `check` accepts
it, returns it unchanged, and accepts its own output. -/
theorem C7_check_idempotent_witness :
    C7ex = normalize C7ex ∧ check C7ex = .ok C7ex :=
  C7_check_idempotent C7ex C7ex (by rfl)

/-! ## Claims C8 and C9 -/

theorem andThenE_ok (b : Except Err Unit) : andThenE (.ok ()) b = b := rfl

theorem andThenE_err (e : Err) (b : Except Err Unit) :
    andThenE (.error e) b = .error e := rfl

theorem dictHas_mem_keys {d : List (String × OptVal)} {k : String}
    (h : dictHas d k = true) : k ∈ dictKeys d := by
  simp only [dictHas, List.any_eq_true, decide_eq_true_eq] at h
  obtain ⟨p, hp, hk⟩ := h
  exact hk ▸ List.mem_map_of_mem (fun q => q.1) hp

theorem keys_allowed_of_filter_nil {topts : List (String × OptVal)}
    {k : String} {bt : String}
    (huo : (dictKeys topts).filter (fun x => x ∉ ALLOWED_TYPE_OPTIONS bt) = [])
    (hk : k ∈ dictKeys topts) : k ∈ ALLOWED_TYPE_OPTIONS bt := by
  by_contra hc
  have : k ∈ ([] : List String) :=
    huo ▸ List.mem_filter.mpr ⟨hk, by simpa using hc⟩
  simp at this

/-- Every `String`-typed option dict carrying a size bound and a pattern is
rejected by `check_typeopts` (some branch of the sequential checks fires). -/
theorem check_typeopts_string_fails (tn : String)
    (topts : List (String × OptVal))
    (hmin : dictHas topts "minv" = true ∨ dictHas topts "maxv" = true)
    (hpat : dictHas topts "pattern" = true) :
    ∃ e, check_typeopts tn "String" topts = .error e := by
  unfold check_typeopts
  repeat' split
  any_goals exact ⟨_, rfl⟩
  next hc =>
    exact absurd ⟨hmin, hpat⟩ hc

/-- When the earlier option checks pass, the pattern/size conflict is the
error reported. -/
theorem check_typeopts_string_pattern (tn : String)
    (topts : List (String × OptVal))
    (hmin : dictHas topts "minv" = true ∨ dictHas topts "maxv" = true)
    (hpat : dictHas topts "pattern" = true)
    (huo : (dictKeys topts).filter (fun x => x ∉ ALLOWED_TYPE_OPTIONS "String") = [])
    (hrv : ¬ (dictHas topts "maxv" = true ∧ dictHas topts "minv" = true ∧
        dictGetInt topts "maxv" 0 < dictGetInt topts "minv" 0)) :
    check_typeopts tn "String" topts = .error (.patternAndSize tn) := by
  have hmaxf : ¬ dictHas topts "maxf" = true := by
    intro hc
    have := keys_allowed_of_filter_nil huo (dictHas_mem_keys hc)
    simp [ALLOWED_TYPE_OPTIONS] at this
  have hro : (REQUIRED_TYPE_OPTIONS "String").filter
      (fun k => ¬ dictHas topts k) = [] := rfl
  unfold check_typeopts
  rw [if_neg (not_ne_iff.mpr hro), if_neg (not_ne_iff.mpr huo), if_neg hrv,
    if_neg (fun hc => hmaxf hc.1), if_pos ⟨hmin, hpat⟩]

def C8td (tn : String) (l : List TOpt) : TypeDefinition :=
  ⟨tn, "String", l, "", some []⟩

theorem C8_lift {tn : String} {l : List TOpt} {e : Err}
    (hres : is_builtin tn = false)
    (h : check_typeopts tn "String" (topts_s2d l) = .error e) :
    check ⟨none, none, [C8td tn l]⟩ = .error (.semantic e) := by
  apply check_single_err
  have hr : stage_reserved (C8td tn l) = .ok () := by
    simp [stage_reserved, C8td, hres]
  have hb : stage_base (C8td tn l) = .ok () := by
    have hsb : is_builtin "String" = true := by decide
    simp [stage_base, C8td, hsb]
  have hn : normTd (C8td tn l) = C8td tn l := rfl
  rw [hn, checkTypeDef, hr, andThenE_ok, hb, andThenE_ok]
  have ho : stage_opts (C8td tn l) = .error e := h
  rw [ho, andThenE_err]

/-- C8 (amended): for every type of base type `String` carrying both a
numeric size bound (`minv` or `maxv`) and a `pattern` option, `check` fails;
the raised error is the pattern/size-conflict error citing the offending
type's name — which the source formats together with the conflicting pair as
`String cannot have both pattern and size constraints` — provided no earlier
option check fires first (no unsupported option key, and no inverted
`minv..maxv` range); when an earlier check fires, its error (which does not
mention the pattern conflict) is raised instead, and `check` still fails. -/
theorem C8_pattern_size_amended (tn : String) (l : List TOpt)
    (hres : is_builtin tn = false)
    (hmin : dictHas (topts_s2d l) "minv" = true ∨
      dictHas (topts_s2d l) "maxv" = true)
    (hpat : dictHas (topts_s2d l) "pattern" = true) :
    (∃ e, check ⟨none, none, [C8td tn l]⟩ = .error (.semantic e)) ∧
    ((dictKeys (topts_s2d l)).filter
        (fun k => k ∉ ALLOWED_TYPE_OPTIONS "String") = [] →
     ¬ (dictHas (topts_s2d l) "maxv" = true ∧
        dictHas (topts_s2d l) "minv" = true ∧
        dictGetInt (topts_s2d l) "maxv" 0 < dictGetInt (topts_s2d l) "minv" 0) →
     check ⟨none, none, [C8td tn l]⟩ = .error (.semantic (.patternAndSize tn))) := by
  constructor
  · obtain ⟨e, he⟩ := check_typeopts_string_fails tn (topts_s2d l) hmin hpat
    exact ⟨e, C8_lift hres he⟩
  · intro huo hrv
    exact C8_lift hres (check_typeopts_string_pattern tn _ hmin hpat huo hrv)

/-- C8 counterexample to the claim as stated: a `String` type carrying
`minv = 5`, `maxv = 3` and a `pattern`.  `check` fails, but with the
inverted-range error `Bad value range T (String): [5..3]`, which cites the
type name and the numeric bounds and says nothing about the
pattern/size-constraint conflict — it is not the pattern/size error the
claim requires. -/
theorem C8_pattern_size_counterexample :
    check ⟨none, none,
      [⟨"T", "String", [("minv", .i 5), ("maxv", .i 3), ("pattern", .s "^a$")],
        "", some []⟩]⟩ = .error (.semantic (.badValueRangeV "T" "String" 5 3)) ∧
    Err.badValueRangeV "T" "String" 5 3 ≠ Err.patternAndSize "T" :=
  ⟨by rfl, by decide⟩

/-- C8 witness: a `String` type with `minv = 3` and a pattern, no other
options; the pattern/size error citing the type name is raised. -/
theorem C8_pattern_size_witness :
    check ⟨none, none,
      [C8td "T" [("minv", .i 3), ("pattern", .s "^a$")]]⟩ =
      .error (.semantic (.patternAndSize "T")) :=
  (C8_pattern_size_amended "T" [("minv", .i 3), ("pattern", .s "^a$")]
    (by decide) (Or.inl (by decide)) (by decide)).2 (by decide) (by decide)

def C9schema (v : Int) : Schema :=
  ⟨none, none, [⟨"T", "Choice", [], "",
     some [.gen 1 "a" "String" [.f "tagid" (.i v)] ""]⟩]⟩

/-- C9: the discriminator-resolution check in `check` runs only when the
parsed `tagid` value is truthy.  A field whose `tagid` equals `0` passes
`check` even though no field of the type has FieldID 0, while every non-zero
`tagid` matching no FieldID of the type (here the only FieldID is 1) makes
`check` fail with the bad-external-tag error. -/
theorem C9_tagid_truthiness :
    check (C9schema 0) = .ok (C9schema 0) ∧
    ∀ v : Int, v ≠ 0 → v ≠ 1 →
      check (C9schema v) =
        .error (.semantic (.badExternalTag "T" "a" "String" v)) := by
  constructor
  · rfl
  · intro v h0 h1
    have htd : checkTypeDef ⟨"T", "Choice", [], "",
        some [.gen 1 "a" "String" [.f "tagid" (.i v)] ""]⟩ =
        .error (.badExternalTag "T" "a" "String" v) := by
      simp [checkTypeDef, andThenE, stage_reserved, stage_base, stage_opts,
        stage_enumptr, stage_anon, anonScan, stage_dupids, stage_dupnames,
        stage_len, stage_ordinal, stage_fullfields, genFieldScan, checkGenField,
        check_typeopts, check_typeopts_tail, topts_s2d, ftopts_s2d, pyDict,
        toDict, dictGet, dictGetInt, dictHas, dictKeys, is_builtin, has_fields,
        FIELD_LENGTH, CORE_TYPES, REQUIRED_TYPE_OPTIONS, ALLOWED_TYPE_OPTIONS,
        VALID_FORMATS, duplicates, firstBadOrdinal, FieldDef.fieldID,
        FieldDef.name1, FieldDef.type2, FieldDef.len, h0, h1]
    exact check_single_err htd

/-- C9 witness: `tagid = 2` resolves to no FieldID and is rejected. -/
theorem C9_tagid_truthiness_witness :
    check (C9schema 2) =
      .error (.semantic (.badExternalTag "T" "a" "String" 2)) :=
  C9_tagid_truthiness.2 2 (by decide) (by decide)

/-! ## Claim C3: ordinal field IDs for Array/Record -/

/-- Replace a field tuple's ID (index 0), keeping the other components. -/
def setFieldID : FieldDef → Int → FieldDef
  | .item _ v d, n => .item n v d
  | .gen _ nm t o d, n => .gen n nm t o d

/-- Replace the ID of the field at 0-based position `k` by `v` (the
"changing any one field's ID" mutation of the claim). -/
def mutId : List FieldDef → Nat → Int → List FieldDef
  | [], _, _ => []
  | f :: rest, 0, v => setFieldID f v :: rest
  | f :: rest, k + 1, v => f :: mutId rest k v

/-- The ordinal-ID condition of lines 122-125 as a recursive predicate:
from position `n` on, the field IDs are `n, n+1, …`. -/
def ordFrom : List FieldDef → Nat → Prop
  | [], _ => True
  | f :: rest, n => f.fieldID = (n : Int) ∧ ordFrom rest (n + 1)

theorem setFieldID_fieldID (f : FieldDef) (v : Int) :
    (setFieldID f v).fieldID = v := by cases f <;> rfl

theorem setFieldID_name1 (f : FieldDef) (v : Int) :
    (setFieldID f v).name1 = f.name1 := by cases f <;> rfl

theorem setFieldID_type2 (f : FieldDef) (v : Int) :
    (setFieldID f v).type2 = f.type2 := by cases f <;> rfl

theorem setFieldID_len (f : FieldDef) (v : Int) :
    (setFieldID f v).len = f.len := by cases f <;> rfl

theorem mutId_map_name1 (fs : List FieldDef) (k : Nat) (v : Int) :
    (mutId fs k v).map FieldDef.name1 = fs.map FieldDef.name1 := by
  induction fs generalizing k with
  | nil => rfl
  | cons f rest ih =>
    cases k with
    | zero => simp [mutId, setFieldID_name1]
    | succ k => simp [mutId, ih]

theorem mutId_map_type2 (fs : List FieldDef) (k : Nat) (v : Int) :
    (mutId fs k v).map FieldDef.type2 = fs.map FieldDef.type2 := by
  induction fs generalizing k with
  | nil => rfl
  | cons f rest ih =>
    cases k with
    | zero => simp [mutId, setFieldID_type2]
    | succ k => simp [mutId, ih]

theorem mutId_map_len (fs : List FieldDef) (k : Nat) (v : Int) :
    (mutId fs k v).map FieldDef.len = fs.map FieldDef.len := by
  induction fs generalizing k with
  | nil => rfl
  | cons f rest ih =>
    cases k with
    | zero => simp [mutId, setFieldID_len]
    | succ k => simp [mutId, ih]

theorem andThenE_ok_iff {a b : Except Err Unit} :
    andThenE a b = .ok () ↔ a = .ok () ∧ b = .ok () := by
  cases a with
  | error e => simp [andThenE]
  | ok u => cases u; simp [andThenE]

/-- `checkTypeDef` succeeds exactly when every stage succeeds. -/
theorem checkTypeDef_ok_iff {td : TypeDefinition} :
    checkTypeDef td = .ok () ↔
      stage_reserved td = .ok () ∧ stage_base td = .ok () ∧
      stage_opts td = .ok () ∧ stage_enumptr td = .ok () ∧
      stage_anon td = .ok () ∧ stage_dupids td = .ok () ∧
      stage_dupnames td = .ok () ∧ stage_len td = .ok () ∧
      stage_ordinal td = .ok () ∧ stage_fullfields td = .ok () := by
  simp [checkTypeDef, andThenE_ok_iff]

theorem ite_err_eq_ok_iff {c : Prop} [Decidable c] {e : Err} :
    (if c then (Except.error e : Except Err Unit) else .ok ()) = .ok () ↔ ¬ c := by
  split <;> simp_all

theorem stage_enumptr_ok_iff {td : TypeDefinition} :
    stage_enumptr td = .ok () ↔
      ¬ ((dictHas (topts_s2d td.opts) "enum" = true ∨
          dictHas (topts_s2d td.opts) "pointer" = true) ∧
         td.fields.getD [] ≠ []) := by
  simp only [stage_enumptr]
  exact ite_err_eq_ok_iff

theorem stage_dupids_ok_iff {td : TypeDefinition} :
    stage_dupids td = .ok () ↔
      duplicates ((td.fields.getD []).map FieldDef.fieldID) = [] := by
  simp only [stage_dupids]
  rw [ite_err_eq_ok_iff, not_ne_iff]

theorem stage_dupids_err {td : TypeDefinition} {dd : List Int}
    (h : duplicates ((td.fields.getD []).map FieldDef.fieldID) = dd)
    (hne : dd ≠ []) :
    stage_dupids td = .error (.duplicateFieldID td.name dd) := by
  simp only [stage_dupids, h]
  rw [if_pos hne]

theorem stage_dupnames_ok_iff {td : TypeDefinition} :
    stage_dupnames td = .ok () ↔
      duplicates ((td.fields.getD []).map FieldDef.name1) = [] := by
  simp only [stage_dupnames]
  rw [ite_err_eq_ok_iff, not_ne_iff]

theorem anonScan_ok_iff (tn : String) (fs : List FieldDef) :
    anonScan tn fs = .ok () ↔ ∀ f ∈ fs, has_fields f.type2 = false := by
  induction fs with
  | nil => simp [anonScan]
  | cons f rest ih =>
    simp only [anonScan, List.forall_mem_cons]
    by_cases h : has_fields f.type2 = true
    · simp [h]
    · have h2 : has_fields f.type2 = false := by simpa using h
      simp [h2, ih]

theorem stage_len_ok_iff {td : TypeDefinition} :
    stage_len td = .ok () ↔
      (td.fields.getD []).filter
        (fun f => f.len ≠ FIELD_LENGTH td.base) = [] := by
  simp only [stage_len]
  split
  next heq => rw [heq]; simp
  next inv rest heq => rw [heq]; simp

theorem firstBadOrdinal_none_iff (fs : List FieldDef) (n : Nat) :
    firstBadOrdinal fs n = none ↔ ordFrom fs n := by
  induction fs generalizing n with
  | nil => simp [firstBadOrdinal, ordFrom]
  | cons f rest ih =>
    simp only [firstBadOrdinal, ordFrom]
    by_cases h : f.fieldID = (n : Int)
    · simp [h, ih]
    · simp [h]

theorem ordFrom_iff_get (fs : List FieldDef) (n : Nat) :
    ordFrom fs n ↔
      ∀ i (h : i < fs.length), (fs.get ⟨i, h⟩).fieldID = ((n + i : Nat) : Int) := by
  induction fs generalizing n with
  | nil => simp [ordFrom]
  | cons f rest ih =>
    constructor
    · rintro ⟨h0, hr⟩ i hi
      match i with
      | 0 => simpa using h0
      | Nat.succ j =>
        have hj : j < rest.length := Nat.lt_of_succ_lt_succ hi
        have := (ih (n + 1)).mp hr j hj
        rw [show (n + (j + 1)) = (n + 1 + j) from by omega]
        simpa using this
    · intro h
      refine ⟨by simpa using h 0 (by simp), (ih (n + 1)).mpr ?_⟩
      intro j hj
      have := h (j + 1) (by simpa using Nat.succ_lt_succ hj)
      rw [show (n + 1 + j) = (n + (j + 1)) from by omega]
      simpa using this

theorem firstBadOrdinal_mut (fs : List FieldDef) (n k : Nat) (v : Int)
    (hk : k < fs.length) (hord : ordFrom fs n) (hv : v ≠ ((n + k : Nat) : Int)) :
    firstBadOrdinal (mutId fs k v) n =
      some (setFieldID (fs.get ⟨k, hk⟩) v, n + k) := by
  induction fs generalizing n k with
  | nil => simp at hk
  | cons f rest ih =>
    cases k with
    | zero =>
      simp only [mutId, firstBadOrdinal]
      rw [if_pos (by rw [setFieldID_fieldID]; simpa using hv)]
      simp
    | succ k =>
      obtain ⟨h0, hr⟩ := hord
      simp only [mutId, firstBadOrdinal]
      rw [if_neg (by simp [h0])]
      have hrec := ih (n + 1) k (Nat.lt_of_succ_lt_succ hk) hr
        (by rw [show (n + 1 + k) = (n + (k + 1)) from by omega]; exact hv)
      rw [hrec]
      simp [show (n + 1 + k) = (n + (k + 1)) from by omega]

theorem stage_ordinal_ok_iff {td : TypeDefinition}
    (hb : td.base = "Array" ∨ td.base = "Record") :
    stage_ordinal td = .ok () ↔ ordFrom (td.fields.getD []) 1 := by
  rw [← firstBadOrdinal_none_iff]
  unfold stage_ordinal
  rw [if_pos hb]
  cases hfb : firstBadOrdinal (td.fields.getD []) 1 with
  | none => simp
  | some p => simp

theorem stage_ordinal_err {td : TypeDefinition} {f : FieldDef} {n : Nat}
    (hb : td.base = "Array" ∨ td.base = "Record")
    (hfb : firstBadOrdinal (td.fields.getD []) 1 = some (f, n)) :
    stage_ordinal td = .error (.itemTag td.name td.base f.name1 f.fieldID n) := by
  unfold stage_ordinal
  rw [if_pos hb, hfb]

theorem checkTypes_single_elim {td : TypeDefinition}
    (h : checkTypes [td] [] = .ok ()) : checkTypeDef td = .ok () := by
  cases hc : checkTypeDef td with
  | error e => simp [checkTypes, hc] at h
  | ok u => cases u; rfl

theorem normTd_self {td : TypeDefinition} {fs : List FieldDef}
    (hf : td.fields = some fs) : normTd td = td := by
  cases td
  simp_all [normTd]

instance {ε α : Type} [DecidableEq ε] [DecidableEq α] :
    DecidableEq (Except ε α) := fun a b =>
  match a, b with
  | .error e, .error f =>
      if h : e = f then isTrue (by rw [h])
      else isFalse (by intro hc; injection hc with h2; exact h h2)
  | .error _, .ok _ => isFalse (fun hc => Except.noConfusion hc)
  | .ok _, .error _ => isFalse (fun hc => Except.noConfusion hc)
  | .ok a, .ok b =>
      if h : a = b then isTrue (by rw [h])
      else isFalse (by intro hc; injection hc with h2; exact h h2)

/-- C3 (amended): for a type definition whose base type is `Array` or
`Record`, with every other per-type invariant satisfied, `check` succeeds
iff every field's FieldID is its 1-based ordinal position.  Changing any one
field's ID to a non-ordinal value makes `check` fail; the error is the
field-specific Item-tag error naming that field (its name, the offending ID
and the expected position) when the mutated ID list has no duplicate, and
the duplicate-fieldID error (which names the type and the colliding ID, not
the field) when the new ID collides with another field's ID — the duplicate
check of lines 106-107 runs before the ordinal check of lines 122-125. -/
theorem C3_ordinal_iff_amended (td : TypeDefinition) (fs : List FieldDef)
    (hf : td.fields = some fs)
    (hb : td.base = "Array" ∨ td.base = "Record")
    (h_res : stage_reserved td = .ok ())
    (h_opts : stage_opts td = .ok ())
    (h_enumptr : stage_enumptr td = .ok ())
    (h_anon : stage_anon td = .ok ())
    (h_dupids : stage_dupids td = .ok ())
    (h_dupnames : stage_dupnames td = .ok ())
    (h_len : stage_len td = .ok ())
    (h_full : stage_fullfields td = .ok ()) :
    (check ⟨none, none, [td]⟩ = .ok ⟨none, none, [td]⟩ ↔
      ∀ i (h : i < fs.length), (fs.get ⟨i, h⟩).fieldID = ((1 + i : Nat) : Int)) ∧
    (∀ k v (hk : k < fs.length), v ≠ ((1 + k : Nat) : Int) →
      (∀ i (h : i < fs.length), (fs.get ⟨i, h⟩).fieldID = ((1 + i : Nat) : Int)) →
      ((duplicates ((mutId fs k v).map FieldDef.fieldID) = [] →
        check ⟨none, none, [{ td with fields := some (mutId fs k v) }]⟩ =
          .error (.semantic
            (.itemTag td.name td.base (fs.get ⟨k, hk⟩).name1 v (1 + k)))) ∧
       (duplicates ((mutId fs k v).map FieldDef.fieldID) ≠ [] →
        check ⟨none, none, [{ td with fields := some (mutId fs k v) }]⟩ =
          .error (.semantic (.duplicateFieldID td.name
            (duplicates ((mutId fs k v).map FieldDef.fieldID))))))) := by
  have h_base : stage_base td = .ok () := by
    rcases hb with h | h <;> simp only [stage_base, h] <;>
      rw [if_neg (by decide)]
  constructor
  · rw [← ordFrom_iff_get]
    constructor
    · intro hok
      have h2 : checkTypes (normalize ⟨none, none, [td]⟩).types [] = .ok () :=
        (check_ok_elim hok).2
      have h3 : checkTypes [td] [] = .ok () := by
        simpa [normalize, normTd_self hf] using h2
      have h4 := checkTypeDef_ok_iff.mp (checkTypes_single_elim h3)
      have h5 := (stage_ordinal_ok_iff hb).mp h4.2.2.2.2.2.2.2.2.1
      simpa [hf] using h5
    · intro hord
      have h_ord : stage_ordinal td = .ok () :=
        (stage_ordinal_ok_iff hb).mpr (by simpa [hf] using hord)
      have h3 : checkTypeDef td = .ok () := checkTypeDef_ok_iff.mpr
        ⟨h_res, h_base, h_opts, h_enumptr, h_anon, h_dupids, h_dupnames,
         h_len, h_ord, h_full⟩
      have h4 := @check_single_ok td (by rwa [normTd_self hf])
      rwa [normTd_self hf] at h4
  · intro k v hk hv hord
    have hfs2 : ({ td with fields := some (mutId fs k v) } :
        TypeDefinition).fields = some (mutId fs k v) := rfl
    have h_res2 : stage_reserved { td with fields := some (mutId fs k v) } =
        .ok () := h_res
    have h_base2 : stage_base { td with fields := some (mutId fs k v) } =
        .ok () := h_base
    have h_opts2 : stage_opts { td with fields := some (mutId fs k v) } =
        .ok () := h_opts
    have h_enumptr2 : stage_enumptr { td with fields := some (mutId fs k v) } =
        .ok () := by
      rw [stage_enumptr_ok_iff]
      have hold := stage_enumptr_ok_iff.mp h_enumptr
      simp only [hf, Option.getD_some] at hold
      show ¬ ((dictHas (topts_s2d td.opts) "enum" = true ∨
          dictHas (topts_s2d td.opts) "pointer" = true) ∧ mutId fs k v ≠ [])
      rintro ⟨hc, hm⟩
      refine hold ⟨hc, fun hfsnil => ?_⟩
      rw [hfsnil] at hm
      exact hm rfl
    have h_anon2 : stage_anon { td with fields := some (mutId fs k v) } =
        .ok () := by
      have hold : ∀ f ∈ fs, has_fields f.type2 = false := by
        have h2 := h_anon
        unfold stage_anon at h2
        simp only [hf, Option.getD_some] at h2
        exact (anonScan_ok_iff _ _).mp h2
      show anonScan td.name (mutId fs k v) = .ok ()
      rw [anonScan_ok_iff]
      intro f hfm
      have h2 : f.type2 ∈ (mutId fs k v).map FieldDef.type2 :=
        List.mem_map_of_mem _ hfm
      rw [mutId_map_type2] at h2
      obtain ⟨g, hg, hgt⟩ := List.mem_map.mp h2
      rw [← hgt]
      exact hold g hg
    refine ⟨fun hdd => ?_, fun hdd => ?_⟩
    · have h_dupids2 : stage_dupids { td with fields := some (mutId fs k v) } =
          .ok () := by
        rw [stage_dupids_ok_iff]
        exact hdd
      have h_dupnames2 :
          stage_dupnames { td with fields := some (mutId fs k v) } = .ok () := by
        rw [stage_dupnames_ok_iff]
        show duplicates ((mutId fs k v).map FieldDef.name1) = []
        rw [mutId_map_name1]
        have h2 := stage_dupnames_ok_iff.mp h_dupnames
        simpa [hf] using h2
      have h_len2 : stage_len { td with fields := some (mutId fs k v) } =
          .ok () := by
        rw [stage_len_ok_iff]
        show (mutId fs k v).filter
          (fun f => f.len ≠ FIELD_LENGTH td.base) = []
        have hold := stage_len_ok_iff.mp h_len
        simp only [hf, Option.getD_some] at hold
        rw [List.filter_eq_nil_iff] at hold ⊢
        intro f hfm
        have h2 : f.len ∈ (mutId fs k v).map FieldDef.len :=
          List.mem_map_of_mem _ hfm
        rw [mutId_map_len] at h2
        obtain ⟨g, hg, hgl⟩ := List.mem_map.mp h2
        have h3 := hold g hg
        simp only [decide_eq_true_eq] at h3 ⊢
        rw [hgl] at h3
        exact h3
      have hfb : firstBadOrdinal (mutId fs k v) 1 =
          some (setFieldID (fs.get ⟨k, hk⟩) v, 1 + k) :=
        firstBadOrdinal_mut fs 1 k v hk ((ordFrom_iff_get fs 1).mpr hord) hv
      have h_ord2 : stage_ordinal { td with fields := some (mutId fs k v) } =
          .error (.itemTag td.name td.base (fs.get ⟨k, hk⟩).name1 v (1 + k)) := by
        have h2 := @stage_ordinal_err { td with fields := some (mutId fs k v) }
          (setFieldID (fs.get ⟨k, hk⟩) v) (1 + k) hb hfb
        rw [setFieldID_name1, setFieldID_fieldID] at h2
        exact h2
      have hctd : checkTypeDef { td with fields := some (mutId fs k v) } =
          .error (.itemTag td.name td.base (fs.get ⟨k, hk⟩).name1 v (1 + k)) := by
        unfold checkTypeDef
        rw [h_res2, andThenE_ok, h_base2, andThenE_ok, h_opts2, andThenE_ok,
          h_enumptr2, andThenE_ok, h_anon2, andThenE_ok, h_dupids2, andThenE_ok,
          h_dupnames2, andThenE_ok, h_len2, andThenE_ok, h_ord2, andThenE_err]
      exact check_single_err (by rwa [normTd_self hfs2])
    · have h_dupids2 : stage_dupids { td with fields := some (mutId fs k v) } =
          .error (.duplicateFieldID td.name
            (duplicates ((mutId fs k v).map FieldDef.fieldID))) :=
        stage_dupids_err rfl hdd
      have hctd : checkTypeDef { td with fields := some (mutId fs k v) } =
          .error (.duplicateFieldID td.name
            (duplicates ((mutId fs k v).map FieldDef.fieldID))) := by
        unfold checkTypeDef
        rw [h_res2, andThenE_ok, h_base2, andThenE_ok, h_opts2, andThenE_ok,
          h_enumptr2, andThenE_ok, h_anon2, andThenE_ok, h_dupids2, andThenE_err]
      exact check_single_err (by rwa [normTd_self hfs2])

/-- C3 counterexample to the claim as stated: in the two-field Record
`T = Record {1 a String, 2 b String}`, changing field `b`'s ID to the
non-ordinal value 1 makes `check` fail — but with the duplicate-fieldID
error `Duplicate fieldID: T {1}`, which does not name field `b`; it is not
the field-specific Item-tag error `Item tag error: T(Record) [b] -- 1 should
be 2` that the claim requires. -/
theorem C3_ordinal_error_counterexample :
    check ⟨none, none, [⟨"T", "Record", [], "",
      some [.gen 1 "a" "String" [] "", .gen 1 "b" "String" [] ""]⟩]⟩ =
      .error (.semantic (.duplicateFieldID "T" [1])) ∧
    Err.duplicateFieldID "T" [1] ≠ Err.itemTag "T" "Record" "b" 1 2 :=
  ⟨by decide, by decide⟩

def C3td : TypeDefinition :=
  ⟨"T", "Record", [], "",
   some [.gen 1 "a" "String" [] "", .gen 2 "b" "String" [] ""]⟩

/-- C3 witness: the amended claim applied to a concrete two-field Record —
the ordinal version passes `check`, and mutating the second field's ID to 5
(no collision) yields the Item-tag error naming field `b`. -/
theorem C3_ordinal_iff_witness :
    check ⟨none, none, [C3td]⟩ = .ok ⟨none, none, [C3td]⟩ ∧
    check ⟨none, none, [⟨"T", "Record", [], "",
      some [.gen 1 "a" "String" [] "", .gen 5 "b" "String" [] ""]⟩]⟩ =
      .error (.semantic (.itemTag "T" "Record" "b" 5 2)) := by
  have h := C3_ordinal_iff_amended C3td
    [.gen 1 "a" "String" [] "", .gen 2 "b" "String" [] ""]
    rfl (Or.inr rfl) (by decide) (by decide) (by decide) (by decide)
    (by decide) (by decide) (by decide) (by decide)
  exact ⟨h.1.mpr (by decide),
    (h.2 1 5 (by decide) (by decide) (by decide)).1 (by decide)⟩

/-! ## JIDL converter (`jadn/convert/jidl.py`)

The line grammar of `line2jadn` is given by Python regular expressions.
They are embedded as deterministic scanners:

* a greedy character-class run (`[-\w]+`, `\d+`, …) followed by a character
  outside the class is deterministic, so it becomes `spanP`;
* a greedy `\s*` before a lazy group is taken maximally (a shorter take
  only moves the group start into the spaces, which changes no available
  remainder match, as every suffix pattern here either starts with `\s*` or
  with a `,?` that cannot match a space);
* a lazy group `(.*?)`/`(.+?)` becomes `firstSplit`: the shortest prefix
  whose remainder the suffix pattern accepts;
* `X?` and alternations become candidate lists tried in the regex's
  preference order (`tryEach`).
-/

/-- Python `\s` (ASCII model; lines produced by `splitlines` contain no
newline). -/
def isSp (c : Char) : Bool :=
  c = ' ' ∨ c = '\t' ∨ c = '\n' ∨ c = '\r' ∨ c = '\x0b' ∨ c = '\x0c'

/-- Python `\w` (ASCII model). -/
def isWord (c : Char) : Bool := c.isAlphanum ∨ c = '_'

/-- The meta-key class `[-\w]`. -/
def metaKeyChar (c : Char) : Bool := isWord c ∨ c = '-'

/-- The type-name class `[-$\w]`. -/
def tnameChar (c : Char) : Bool := isWord c ∨ c = '-' ∨ c = '$'

/-- The field-name class `[-:$\w]`. -/
def fnameChar (c : Char) : Bool := isWord c ∨ c = '-' ∨ c = ':' ∨ c = '$'

/-- The multiplicity-range class `[.*\d]`. -/
def rangeChar (c : Char) : Bool := c.isDigit ∨ c = '.' ∨ c = '*'

/-- Greedy character-class run: the longest prefix satisfying `p`, and the
rest. -/
def spanP (p : Char → Bool) : List Char → List Char × List Char
  | [] => ([], [])
  | c :: rest =>
      if p c then
        let r := spanP p rest
        (c :: r.1, r.2)
      else ([], c :: rest)

/-- Greedy `\s*`. -/
def dropSp (cs : List Char) : List Char := (spanP isSp cs).2

/-- Trailing `\s*$`: strip trailing whitespace. -/
def rtrimSp (cs : List Char) : List Char :=
  ((spanP isSp cs.reverse).2).reverse

/-- A lazy group `(.*?)` before a suffix pattern `p`: split at the shortest
prefix whose remainder `p` accepts. -/
def firstSplit {β : Type} (p : List Char → Option β) :
    List Char → Option (List Char × β)
  | [] =>
    match p [] with
    | some b => some ([], b)
    | none => none
  | c :: rest =>
    match p (c :: rest) with
    | some b => some ([], b)
    | none => (firstSplit p rest).map (fun pr => (c :: pr.1, pr.2))

/-- Candidate alternatives in regex preference order: first success wins. -/
def tryEach {α β : Type} : List α → (α → Option β) → Option β
  | [], _ => none
  | c :: rest, k =>
      match k c with
      | some b => some b
      | none => tryEach rest k

/-- `int(m.group(1))` on a digit run. -/
def digitsToInt (ds : List Char) : Int :=
  Int.ofNat (ds.foldl (fun acc c => acc * 10 + (c.toNat - 48)) 0)

/-- The meta-line pattern of `line2jadn`
(`^\s*([-\w]+):\s*(.+?)\s*$`): key, colon, non-empty trimmed value.  When
everything after the colon is whitespace, the lazy `(.+?)` still needs one
character, so the backtracking `\s*` yields it a single space. -/
def parseMeta (line : String) : Option (String × String) :=
  let cs := dropSp line.toList
  let key := (spanP metaKeyChar cs).1
  let rest := (spanP metaKeyChar cs).2
  if key = [] then none
  else
    match rest with
    | ':' :: rest2 =>
        let v := dropSp rest2
        if v = [] then
          if rest2 = [] then none else some (key.asString, " ")
        else some (key.asString, (rtrimSp v).asString)
    | _ => none

/-- The suffix of the type-definition pattern after the lazy type-string
group: `\s*\{?(?:\s*\/\/\s*(.*?)\s*)?$`.  Returns the description group. -/
def typeSuffix (t : List Char) : Option (Option String) :=
  let t1 := dropSp t
  let t2 := match t1 with
    | '{' :: r => r
    | _ => t1
  let t3 := dropSp t2
  if t3.take 2 = ['/', '/'] then
    some (some ((rtrimSp (dropSp (t3.drop 2))).asString))
  else if t2 = [] then some none
  else none

/-- The type-definition pattern
(`^\s*([-$\w]+)\s*=\s*(.*?)\s*\{?(?:\s*\/\/\s*(.*?)\s*)?$`): name,
type-string, optional description (`''` when absent, as in the source's
`m.group(3) if m.group(3) else ''`). -/
def parseType (line : String) : Option (String × String × String) :=
  let cs := dropSp line.toList
  let nm := (spanP tnameChar cs).1
  let rest := (spanP tnameChar cs).2
  if nm = [] then none
  else
    match dropSp rest with
    | '=' :: rest2 =>
        match firstSplit typeSuffix (dropSp rest2) with
        | some (g2, desc) => some (nm.asString, g2.asString, desc.getD "")
        | none => none
    | _ => none

/-- The suffix of the Enumerated-item pattern after the lazy value group:
`,?\s*(?:\/\/\s*(.*?)\s*)?$`. -/
def enumSuffix (t : List Char) : Option (Option String) :=
  let t1 := match t with
    | ',' :: r => r
    | _ => t
  let t2 := dropSp t1
  if t2.take 2 = ['/', '/'] then
    some (some ((rtrimSp (dropSp (t2.drop 2))).asString))
  else if t2 = [] then some none
  else none

/-- The Enumerated-item pattern
(`^\s*(\d+)\s*(.*?),?\s*(?:\/\/\s*(.*?)\s*)?$`): ItemID, ItemValue,
description. -/
def parseEnumItem (line : String) : Option (Int × String × String) :=
  let cs := dropSp line.toList
  let ds := (spanP Char.isDigit cs).1
  let rest := (spanP Char.isDigit cs).2
  if ds = [] then none
  else
    match firstSplit enumSuffix (dropSp rest) with
    | some (g2, desc) => some (digitsToInt ds, g2.asString, desc.getD "")
    | none => none

/-- A matched multiplicity: the bracketed-range group (`\[([.*\d]+)\]`) or
the literal `optional` group. -/
inductive RangeTok where
  | bracket (s : String)
  | optional
deriving DecidableEq, Repr

/-- `,?`: consume a leading comma if present (preferred), else leave it. -/
def optComma (t : List Char) : List (List Char) :=
  match t with
  | ',' :: r => [r, t]
  | _ => [t]

/-- `(?:\[([.*\d]+)\]|(optional))?` in preference order: bracketed range,
the literal `optional`, absent. -/
def optRange (t : List Char) : List (Option RangeTok × List Char) :=
  (match t with
   | '[' :: r =>
       let run := (spanP rangeChar r).1
       let rest := (spanP rangeChar r).2
       match rest with
       | ']' :: r2 => if run ≠ [] then [(some (.bracket run.asString), r2)] else []
       | _ => []
   | _ => []) ++
  (if t.take 8 = "optional".toList then [(some .optional, t.drop 8)] else []) ++
  [(none, t)]

/-- The suffix of the general-field pattern after the lazy field-definition
group: `,?\s*(?:\[([.*\d]+)\]|(optional))?,?\s*(?:\/\/\s*(.*?)\s*)?$`. -/
def genSuffix (t : List Char) : Option (Option RangeTok × Option String) :=
  tryEach (optComma t) fun t1 =>
    tryEach (optRange (dropSp t1)) fun pr =>
      tryEach (optComma pr.2) fun t3 =>
        let t4 := dropSp t3
        if t4.take 2 = ['/', '/'] then
          some (pr.1, some ((rtrimSp (dropSp (t4.drop 2))).asString))
        else if t4 = [] then some (pr.1, none)
        else none

/-- `\s*(.*?)` followed by `genSuffix`. -/
def contFstr (t : List Char) : Option (String × Option RangeTok × String) :=
  (firstSplit genSuffix (dropSp t)).map fun pr =>
    (pr.1.asString, pr.2.1, pr.2.2.getD "")

/-- The candidates of the optional field-name group `([-:$\w]+\/?)?` in
regex preference order: the longest run with a trailing `/` when one
follows, then runs from longest to length 1, then absent. -/
def nameCands (r : List Char) : List (Option String × List Char) :=
  let run := (spanP fnameChar r).1
  let rrest := (spanP fnameChar r).2
  (match rrest with
   | '/' :: r2 => if run ≠ [] then [(some ((run ++ ['/']).asString), r2)] else []
   | _ => []) ++
  ((List.range run.length).map (fun i =>
    (some ((run.take (run.length - i)).asString),
     run.drop (run.length - i) ++ rrest))) ++
  [(none, r)]

/-- `\s+` with backtracking: consume `j` of the run's spaces, longest
first, never zero. -/
def spaceTails (sps rest1 : List Char) : List (List Char) :=
  (List.range sps.length).map (fun i => sps.drop (sps.length - i) ++ rest1)

/-- The general-field pattern (`^` id pn fstr range desc `$` with
`pn = '()'` for positional types and `pn = \s+([-:$\w]+\/?)?` otherwise):
FieldID, optional field name (`some ""` for the empty positional group,
`none` for an absent name group), field-definition string, multiplicity,
description. -/
def parseGenField (idt : Bool) (line : String) :
    Option (Int × Option String × String × Option RangeTok × String) :=
  let cs := dropSp line.toList
  let ds := (spanP Char.isDigit cs).1
  let rest0 := (spanP Char.isDigit cs).2
  if ds = [] then none
  else
    let fid := digitsToInt ds
    if idt then
      (contFstr rest0).map fun pr => (fid, some "", pr.1, pr.2.1, pr.2.2)
    else
      let sps := (spanP isSp rest0).1
      let rest1 := (spanP isSp rest0).2
      if sps = [] then none
      else
        tryEach (spaceTails sps rest1) fun r =>
          tryEach (nameCands r) fun nc =>
            (contFstr nc.2).map fun pr => (fid, nc.1, pr.1, pr.2.1, pr.2.2)

/-! ### External Option Codec boundary of the converter -/

/-- Errors arising in `jidl_loads` / `line2jadn`.  `jidlLoad` is the
explicit `raise_error(f'JIDL load{repr(line)}')`; `noneTdef` is the
`TypeError` from subscripting `tdef[TypeOptions]` when `tdef` is `None`
(line 92); `appendNone` is the `AttributeError` from `fields.append` when
the accumulator is closed (`fields = None`). -/
inductive JErr where
  | jidlLoad (line : String)
  | noneTdef
  | appendNone
  | assertFieldOpts
  | optionCodec (s : String)
  | jsonValue (s : String)
deriving DecidableEq, Repr

/-- Modelled from the spec: `typestr2jadn(str) -> (BaseType, TypeOptions,
FieldOptions)` of the external Option Codec.  Restricted to plain
type-reference strings (a non-empty run of name characters), which decode
to the bare name with no options; richer option syntax is not exercised by
the claims and rejects. -/
def typestr2jadn (s : String) : Except JErr (String × List TOpt × List FOpt) :=
  if s.toList ≠ [] ∧ s.toList.all tnameChar then .ok (s, [], [])
  else .error (.optionCodec s)

/-- Modelled from the spec: `jadn2typestr(BaseType, TypeOptions) -> str` of
the external Option Codec, the inverse of `typestr2jadn`; an option-free
type renders as its bare base-type name (the only form the claims
exercise). -/
def jadn2typestr (bt : String) (_topts : List TOpt) : String := bt

/-- `split("..")` on a character list (leftmost occurrences first). -/
def splitOnDots : List Char → List (List Char)
  | [] => [[]]
  | '.' :: '.' :: rest => [] :: splitOnDots rest
  | c :: rest =>
      let ps := splitOnDots rest
      (c :: ps.headD []) :: ps.tail

/-- Modelled from the spec: decoding of a multiplicity string (`''`,
`a..b`, `a..*`, or a single count) into field options, as
`fielddef2jadn` performs via the Option Codec. -/
def multS2FOpts (fmult : String) : Except JErr (List FOpt) :=
  if fmult = "" then .ok []
  else
    match (splitOnDots fmult.toList).map List.asString with
    | [a, b] =>
        if a.toList ≠ [] ∧ a.toList.all Char.isDigit then
          if b = "*" then
            .ok [.f "minc" (.i (digitsToInt a.toList)), .f "maxc" (.i 0)]
          else if b.toList ≠ [] ∧ b.toList.all Char.isDigit then
            .ok [.f "minc" (.i (digitsToInt a.toList)),
                 .f "maxc" (.i (digitsToInt b.toList))]
          else .error (.optionCodec fmult)
        else .error (.optionCodec fmult)
    | [a] =>
        if a.toList ≠ [] ∧ a.toList.all Char.isDigit then
          .ok [.f "minc" (.i (digitsToInt a.toList)),
               .f "maxc" (.i (digitsToInt a.toList))]
        else .error (.optionCodec fmult)
    | _ => .error (.optionCodec fmult)

/-- Modelled from the spec: `fielddef2jadn(id, name, typestr, range, desc)
-> FieldTuple` of the external Option Codec.  An empty type string yields
the 3-element Enumerated item `(id, name, desc)`; otherwise the 5-element
general field with the decoded type and multiplicity options. -/
def fielddef2jadn (fid : Int) (fname : String) (fstr : String)
    (fmult : String) (fdesc : String) : Except JErr FieldDef :=
  if fstr = "" then .ok (.item fid fname fdesc)
  else
    match typestr2jadn fstr with
    | .error e => .error e
    | .ok (bt, _, _) =>
        match multS2FOpts fmult with
        | .error e => .error e
        | .ok mopts => .ok (.gen fid fname bt mopts fdesc)

/-- Modelled from the spec: the multiplicity string `jadn2fielddef`
renders from a field's decoded `minc`/`maxc` (default 1): `1` for
exactly-one, `a..b` otherwise with `*` for the unbounded `maxc = 0`. -/
def multD2S (fopts : List FOpt) : String :=
  let fo := (ftopts_s2d fopts).1
  let minc := dictGetInt fo "minc" 1
  let maxc := dictGetInt fo "maxc" 1
  if minc = 1 ∧ maxc = 1 then "1"
  else toString minc ++ ".." ++ (if maxc = 0 then "*" else toString maxc)

/-- Modelled from the spec: `jadn2fielddef(FieldTuple, TypeDef) -> (name,
typestring, multiplicity, desc)` of the external Option Codec. -/
def jadn2fielddef (fd : FieldDef) (_td : TypeDefinition) :
    String × String × String × String :=
  match fd with
  | .item _ v d => (v, "", "", d)
  | .gen _ nm ft fopts d => (nm, jadn2typestr ft [], multD2S fopts, d)

/-- Modelled from the spec: `cleanup_tagid(fields)` — the deferred
per-type field cleanup run when an accumulator closes (resolving an
implicit tag/discriminator field).  No claim exercises tagid resolution in
the JIDL parser, so it leaves the fields unchanged; `jidlStep` below is
parameterized over the cleanup function so close-time behavior is stated
for an arbitrary cleanup. -/
def cleanup_tagid (fs : List FieldDef) : List FieldDef := fs

/-! ### `line2jadn` (jidl.py lines 68-108) -/

/-- The classification `line2jadn` returns: a meta line, a type-definition
line, a field/item line, or the `('', '')` result for blank-ish and `}`
lines. -/
inductive LineRes where
  | M (k v : String)
  | T (td : TypeDefinition)
  | F (fd : FieldDef)
  | skip
deriving DecidableEq, Repr

/-- `line2jadn(line, tdef)`: classify one JIDL line against the currently
open type definition.  Pattern order is the source's: meta, then type
definition, then (after computing the positional-grammar flag from
`tdef[TypeOptions]` — a `TypeError` crash when `tdef` is `None`) the
field/item grammar selected by the open type's base type; a line matching
nothing and not blank/`}` raises the `JIDL load` error. -/
def line2jadn (line : String) (tdef : Option TypeDefinition) :
    Except JErr LineRes :=
  if line = "" then .ok .skip
  else
    match parseMeta line with
    | some kv => .ok (.M kv.1 kv.2)
    | none =>
      match parseType line with
      | some ntd =>
          match typestr2jadn ntd.2.1 with
          | .error e => .error e
          | .ok (bt, topts, fo) =>
              -- `assert fo == []` — field options must not appear in typedefs
              if fo ≠ [] then .error .assertFieldOpts
              else .ok (.T ⟨ntd.1, bt, topts, ntd.2.2, some []⟩)
      | none =>
        match tdef with
        | none => .error .noneTdef
        | some td =>
          let idt := (get_optx td.opts "id").isSome ∨ td.base = "Array"
          if td.base = "Enumerated" then
            match parseEnumItem line with
            | some iv =>
                match fielddef2jadn iv.1 iv.2.1 "" "" iv.2.2 with
                | .ok fd => .ok (.F fd)
                | .error e => .error e
            | none =>
                if rtrimSp (dropSp line.toList) = [] ∨
                    rtrimSp (dropSp line.toList) = ['}'] then .ok .skip
                else .error (.jidlLoad line)
          else
            match parseGenField idt line with
            | some g =>
                let rangeStr := match g.2.2.2.1 with
                  | some .optional => "0..1"
                  | some (.bracket s) => s
                  | none => ""
                match fielddef2jadn g.1 (g.2.1.getD "") g.2.2.1 rangeStr
                    g.2.2.2.2 with
                | .ok fd => .ok (.F fd)
                | .error e => .error e
            | none =>
                if rtrimSp (dropSp line.toList) = [] ∨
                    rtrimSp (dropSp line.toList) = ['}'] then .ok .skip
                else .error (.jidlLoad line)

/-! ### `jidl_dumps` (jidl.py lines 17-53) -/

/-- Modelled from the spec: the fixed preferred display order of meta keys
(`META_ORDER` of the definitions module, not in the visible source). -/
def META_ORDER : List String :=
  ["package", "version", "title", "description", "comment", "copyright",
   "license", "namespaces", "roots", "exports", "config"]

/-- `json.dumps` of a meta value (modelled for the value shapes of `Jv`;
string escaping is not exercised by the claims). -/
def jvDumps : Jv → String
  | .s v => "\"" ++ v ++ "\""
  | .i n => toString n
  | .l vs =>
      "[" ++ String.intercalate ", " (vs.map (fun v => "\"" ++ v ++ "\"")) ++ "]"

/-- `json.loads` of a meta value (modelled inverse of `jvDumps` on quoted
strings and digit runs). -/
def parseJv (s : String) : Except JErr Jv :=
  match s.toList with
  | '"' :: rest =>
      if rest.getLast? = some '"' ∧ (rest.dropLast).all (fun c => c ≠ '"') then
        .ok (.s (rest.dropLast).asString)
      else .error (.jsonValue s)
  | cs =>
      if cs ≠ [] ∧ cs.all Char.isDigit then .ok (.i (digitsToInt cs))
      else .error (.jsonValue s)

/-- `f'{s:>w}'`. -/
def padLeft (s : String) (w : Nat) : String :=
  (List.replicate (w - s.length) ' ').asString ++ s

/-- `f'{s:<w}'` / `f'{s:w}'`. -/
def padRight (s : String) (w : Nat) : String :=
  s ++ (List.replicate (w - s.length) ' ').asString

/-- `jidl_dumps(schema)` with the default widths
(`meta 12, id 4, name 12, type 35, page None` — no width override, no page
truncation): meta entries first (preferred order, then remaining keys in
schema order), then one header line and one line per field for each type. -/
def jidl_dumps (schema : Schema) : String :=
  let wmeta := 12
  let wid := 4
  let wname := 12
  let wtype := 35
  let meta := schema.meta.getD []
  let mlist := META_ORDER.filter (fun k => meta.any (fun p => p.1 = k))
  let rest := ((meta.map (fun p => p.1)).filter (fun k => k ∉ mlist))
  let metaText := String.join ((mlist ++ rest).map (fun k =>
    padLeft k wmeta ++ ": " ++
      jvDumps (((meta.find? (fun p => p.1 = k)).map (fun p => p.2)).getD
        (.s "")) ++ "\n"))
  let wt := wid + wname + wtype
  let typeText := String.join (schema.types.map (fun td =>
    let tdef := td.name ++ " = " ++ jadn2typestr td.base td.opts
    let tdesc := if td.desc ≠ "" then "// " ++ td.desc else ""
    let header := "\n" ++ padRight tdef wt ++ tdesc ++ "\n"
    let idt := td.base = "Array" ∨ (get_optx td.opts "id").isSome
    let fieldsText := String.join ((td.fields.getD []).map (fun fd =>
      let nfmd := jadn2fielddef fd td
      if td.base = "Enumerated" then
        let fdesc := if nfmd.2.2.2 ≠ "" then "// " ++ nfmd.2.2.2 else ""
        let fs := padLeft (toString fd.fieldID) wid ++ " " ++ nfmd.1
        padRight fs (wid + wname + 2) ++ fdesc ++ "\n"
      else
        let fmult := nfmd.2.2.1
        let fdef := nfmd.2.1 ++
          (if fmult = "1" then ""
           else if fmult = "0..1" then " optional"
           else " [" ++ fmult ++ "]")
        let fdesc := if nfmd.2.2.2 ≠ "" then "// " ++ nfmd.2.2.2 else ""
        let wn := if idt then 0 else wname
        let fs := padLeft (toString fd.fieldID) wid ++ " " ++
          padRight nfmd.1 wn ++ " " ++ fdef
        let wf := if idt then wid + wtype else wt
        padRight fs wf ++ fdesc ++ "\n"))
    header ++ fieldsText))
  metaText ++ typeText

/-! ### `jidl_loads` (jidl.py lines 111-128) -/

/-- Split a character list at newlines. -/
def splitNl : List Char → List (List Char)
  | [] => [[]]
  | c :: rest =>
      let ps := splitNl rest
      if c = '\n' then [] :: ps
      else (c :: ps.headD []) :: ps.tail

/-- `str.splitlines` for newline-separated text (no trailing empty piece
for text ending in a newline). -/
def splitlines (s : String) : List String :=
  if s = "" then []
  else
    let parts := (splitNl s.toList).map List.asString
    if parts.getLast? = some "" then parts.dropLast else parts

/-- The loop state of `jidl_loads`: collected meta entries, collected type
definitions, and whether the fields accumulator is open (`fields` is not
`None`; it always aliases the last type's `Fields` list). -/
structure JState where
  meta : List (String × Jv)
  types : List TypeDefinition
  fopen : Bool
deriving DecidableEq, Repr

/-- The fields of the most recently parsed type. -/
def lastFields (ts : List TypeDefinition) : List FieldDef :=
  ((ts.getLast?).map (fun td => td.fields.getD [])).getD []

/-- Replace the fields of the most recently parsed type (the in-place
append/cleanup on the aliased `fields` list). -/
def setLastFields : List TypeDefinition → List FieldDef → List TypeDefinition
  | [], _ => []
  | [td], fs => [{ td with fields := some fs }]
  | td :: rest, fs => td :: setLastFields rest fs

/-- `meta.update({k: v})`. -/
def metaUpdate (m : List (String × Jv)) (k : String) (v : Jv) :
    List (String × Jv) :=
  if m.any (fun p => p.1 = k) then
    m.map (fun p => if p.1 = k then (k, v) else p)
  else m ++ [(k, v)]

/-- One iteration of the `jidl_loads` loop, parameterized over the cleanup
function `ct` applied when the accumulator closes.  A blank (empty) line is
skipped entirely by the `if line:` guard.  Otherwise the line is parsed
with the last type as context; a field result is appended to the open
accumulator (an `AttributeError` when it is closed); any non-field result
first closes a non-empty open accumulator (`elif fields:` — the cleanup
runs and `fields` becomes `None`; an empty accumulator stays open), then a
meta result updates the meta dict and a type result appends the new type
and opens its (empty) accumulator. -/
def jidlStep (ct : List FieldDef → List FieldDef) (st : JState)
    (line : String) : Except JErr JState :=
  if line = "" then .ok st
  else
    match line2jadn line st.types.getLast? with
    | .error e => .error e
    | .ok r =>
      match r with
      | .F fd =>
          if st.fopen then
            .ok { st with
              types := setLastFields st.types (lastFields st.types ++ [fd]) }
          else .error .appendNone
      | r2 =>
        let st1 :=
          if st.fopen ∧ lastFields st.types ≠ [] then
            { st with types := setLastFields st.types (ct (lastFields st.types)),
                      fopen := false }
          else st
        match r2 with
        | .M k v =>
            match parseJv v with
            | .ok jv => .ok { st1 with meta := metaUpdate st1.meta k jv }
            | .error e => .error e
        | .T td => .ok { st1 with types := st1.types ++ [td], fopen := true }
        | _ => .ok st1

/-- `jidl_loads(doc)` with an explicit cleanup function: fold `jidlStep`
over the document's lines, then build the schema dict
(`{'meta': meta, 'types': types} if meta else {'types': types}`). -/
def jidl_loads_ct (ct : List FieldDef → List FieldDef) (doc : String) :
    Except JErr Schema :=
  match (splitlines doc).foldlM (jidlStep ct) ⟨[], [], false⟩ with
  | .error e => .error e
  | .ok st =>
      .ok { meta := if st.meta = [] then none else some st.meta,
            info := none, types := st.types }

/-- `jidl_loads(doc)`: the parser with the source's `cleanup_tagid`. -/
def jidl_loads (doc : String) : Except JErr Schema :=
  jidl_loads_ct cleanup_tagid doc

/-! ## Claim C4: the JIDL round-trip law -/

def C4schema : Schema :=
  ⟨none, none,
   [⟨"Color", "Enumerated", [], "line1\nline2", some [.item 1 "red" ""]⟩]⟩

/-- C4: the round-trip law `jidl_loads (jidl_dumps S) = S` fails on a
checked schema whose type description contains a newline.  `check` accepts
the schema (a description is an unconstrained string), but `jidl_dumps`
writes the description into the type's header line, so the second
description line `line2` appears as a line of its own; on re-parsing it
matches no pattern and `jidl_loads` raises the grammar error
`JIDL load'line2'` instead of returning the schema. -/
theorem C4_jidl_roundtrip_bug :
    check C4schema = .ok C4schema ∧
    jidl_loads (jidl_dumps C4schema) = .error (.jidlLoad "line2") :=
  ⟨by decide, by decide⟩

/-! ## Claim C6: Enumerated-context line grammar -/

def C6enumTd : TypeDefinition := ⟨"Color", "Enumerated", [], "", some []⟩

/-- C6 counterexample to the claim as stated: within an Enumerated type
context, the general 5-field-grammar line
`1 name String optional // the name` is **not** rejected — the lazy
item-value group of the Enumerated pattern absorbs the whole middle of the
line, so it parses as the item `(1, "name String optional", "the name")`
rather than raising the grammar error. -/
theorem C6_general_line_not_rejected_counterexample :
    line2jadn "1 name String optional // the name" (some C6enumTd) =
      .ok (.F (.item 1 "name String optional" "the name")) ∧
    (Except.ok (.F (.item 1 "name String optional" "the name")) :
        Except JErr LineRes) ≠
      .error (.jidlLoad "1 name String optional // the name") :=
  ⟨by decide, by decide⟩

/-- C6 (amended): within an Enumerated type context, `2 RED // the color
red` parses to the 3-tuple `(ItemID 2, ItemValue "RED", ItemDesc "the color
red")`; a line written in the general 5-field grammar is not rejected but
parsed as an item whose ItemValue is the entire text between the ID and the
`//` description. -/
theorem C6_enumerated_lines_amended :
    line2jadn "2 RED // the color red" (some C6enumTd) =
      .ok (.F (.item 2 "RED" "the color red")) ∧
    line2jadn "1 name String optional // the name" (some C6enumTd) =
      .ok (.F (.item 1 "name String optional" "the name")) :=
  ⟨by decide, by decide⟩

/-! ## Claim C10: `line2jadn` with no open type -/

/-- C10: a non-blank line matching neither the meta pattern nor the
type-definition pattern, processed before any type-definition line has been
parsed, does not produce the descriptive `JIDL load` grammar error:
`line2jadn` is called with `tdef = None` and evaluates
`get_optx(tdef[TypeOptions], 'id')`, so parsing aborts with an unhandled
`TypeError` (`noneTdef`).  The same holds for the `jidl_loads` loop in any
state with no parsed types. -/
theorem C10_line2jadn_tdef_none (line : String) (hne : line ≠ "")
    (hm : parseMeta line = none) (ht : parseType line = none) :
    line2jadn line none = .error .noneTdef ∧
    ∀ (ct : List FieldDef → List FieldDef) (st : JState), st.types = [] →
      jidlStep ct st line = .error .noneTdef := by
  have h1 : line2jadn line none = .error .noneTdef := by
    simp only [line2jadn]
    rw [if_neg hne]
    simp [hm, ht]
  refine ⟨h1, fun ct st hst => ?_⟩
  unfold jidlStep
  rw [if_neg hne, hst]
  simp [h1]

/-- C10 witness: a field-shaped line with no preceding type definition. -/
theorem C10_line2jadn_tdef_none_witness :
    line2jadn " 1 a String optional // x" none = .error .noneTdef :=
  (C10_line2jadn_tdef_none " 1 a String optional // x" (by decide)
    (by decide) (by decide)).1

/-! ## Claim C5: closing the fields accumulator -/

/-- C5 counterexample to the claim as stated: in a document where a blank
line follows a type's field lines, a later field line **is** appended to
that type's fields — the `if line:` guard skips empty lines entirely, so a
blank line does not close the accumulator and `2 b String` still lands in
`T`'s fields. -/
theorem C5_blank_line_counterexample :
    jidl_loads "T = Record\n 1 a String\n\n 2 b String" =
      .ok ⟨none, none, [⟨"T", "Record", [], "",
        some [.gen 1 "a" "String" [] "", .gen 2 "b" "String" [] ""]⟩]⟩ :=
  by decide

/-- C5 (amended): the fields accumulator of the most recently parsed type
is closed — the cleanup pass `ct` runs on the accumulated fields and the
accumulator becomes `None` — exactly when a **non-empty** line whose parse
result is not a field (a `}`/whitespace line, a meta line, or a new
type-definition line) is processed while the accumulator is open and
non-empty; a type line then opens the new type's fresh accumulator.  An
empty line is skipped by the `if line:` guard and closes nothing, and a
field line is appended to the still-open accumulator, so a field line after
a blank line is still appended to that type's fields (the concrete final
conjunct). -/
theorem C5_accumulator_close_amended :
    (∀ (ct : List FieldDef → List FieldDef) (st : JState),
      jidlStep ct st "" = .ok st) ∧
    (∀ ct st line fd, line ≠ "" →
      line2jadn line st.types.getLast? = .ok (.F fd) → st.fopen = true →
      jidlStep ct st line = .ok { st with
        types := setLastFields st.types (lastFields st.types ++ [fd]) }) ∧
    (∀ ct st line, line ≠ "" →
      line2jadn line st.types.getLast? = .ok .skip →
      st.fopen = true → lastFields st.types ≠ [] →
      jidlStep ct st line = .ok { st with
        types := setLastFields st.types (ct (lastFields st.types)),
        fopen := false }) ∧
    (∀ ct st line, line ≠ "" →
      line2jadn line st.types.getLast? = .ok .skip →
      (st.fopen = false ∨ lastFields st.types = []) →
      jidlStep ct st line = .ok st) ∧
    (∀ ct st line td, line ≠ "" →
      line2jadn line st.types.getLast? = .ok (.T td) →
      st.fopen = true → lastFields st.types ≠ [] →
      jidlStep ct st line = .ok ⟨st.meta,
        setLastFields st.types (ct (lastFields st.types)) ++ [td], true⟩) ∧
    (∀ ct st line k v jv, line ≠ "" →
      line2jadn line st.types.getLast? = .ok (.M k v) →
      parseJv v = .ok jv → st.fopen = true → lastFields st.types ≠ [] →
      jidlStep ct st line = .ok ⟨metaUpdate st.meta k jv,
        setLastFields st.types (ct (lastFields st.types)), false⟩) ∧
    (jidl_loads "T = Record\n 1 a String\n\n 2 b String" =
      .ok ⟨none, none, [⟨"T", "Record", [], "",
        some [.gen 1 "a" "String" [] "", .gen 2 "b" "String" [] ""]⟩]⟩) := by
  refine ⟨fun ct st => rfl, ?_, ?_, ?_, ?_, ?_, by decide⟩
  · intro ct st line fd hne hl hfo
    unfold jidlStep
    rw [if_neg hne, hl]
    simp [hfo]
  · intro ct st line hne hl hfo hlf
    unfold jidlStep
    rw [if_neg hne, hl]
    simp [hfo, hlf]
  · intro ct st line hne hl hor
    unfold jidlStep
    rw [if_neg hne, hl]
    rcases hor with h | h <;> simp [h]
  · intro ct st line td hne hl hfo hlf
    unfold jidlStep
    rw [if_neg hne, hl]
    simp [hfo, hlf]
  · intro ct st line k v jv hne hl hjv hfo hlf
    unfold jidlStep
    rw [if_neg hne, hl]
    simp [hfo, hlf, hjv]

/-- C5 witness: a `}` line with one accumulated field closes the
accumulator (with the source's cleanup applied). -/
theorem C5_accumulator_close_witness :
    jidlStep cleanup_tagid
      ⟨[], [⟨"T", "Record", [], "", some [.gen 1 "a" "String" [] ""]⟩], true⟩
      "\x7d" =
      .ok ⟨[], [⟨"T", "Record", [], "", some [.gen 1 "a" "String" [] ""]⟩],
        false⟩ := by
  have h := C5_accumulator_close_amended.2.2.1 cleanup_tagid
    ⟨[], [⟨"T", "Record", [], "", some [.gen 1 "a" "String" [] ""]⟩], true⟩
    "\x7d" (by decide) (by decide) (by decide) (by decide)
  exact h

end JADN
